import Mathlib

/-
Shallow embedding of the descriptor/stream-management layer of
src/posix/posix.c: a POSIX-style wrapper around a FatFS engine.

Modelling conventions.
* The descriptor table __iob[MAX_FILES] is a list of optional stream
  records (St.tbl); MAX_FILES is the length of that list.  The global
  errno variable is St.err.
* A FatFS engine file handle (FIL) is modelled as the file contents plus
  the current file position (Fil); f_size is the length of the data and
  f_tell is the position.  Where a claim depends on an arbitrary engine
  verdict (f_open / f_close / f_lseek / f_read results), the verdict is
  passed in as an explicit FRESULT argument or response function, since
  the engine is an external collaborator of this layer.
* calloc/safefree have no observable effect beyond the table slot, so an
  allocation failure is an explicit Boolean argument and freeing a
  record is dropping its slot.
* stream->flags bit operations are modelled by Boolean fields named after
  the avr-libc flag bits (__SRD -> rd, __SWR -> wr, __SSTR -> sstr,
  __SMALLOC -> smalloc, __SUNGET -> sunget, __SEOF -> seof,
  __SERR -> serr).  An assignment of a whole flag mask such as
  stream->flags = _FDEV_SETUP_RW sets the named bits and clears all the
  others.
* Numeric constants from headers that are not part of src/ (posix.h,
  fatfs.h, avr-libc stdio) use the standard Linux / FatFS / avr-libc
  values; the errno values agree with the index of each message in
  sys_errlist[] in src/posix/posix.c.
* The three console streams are assumed to be registered (fdevopen) as
  three distinct stream records in slots 0..2, so the pointer
  comparisons stream == stdin / stdout / stderr are modelled as tests on
  the file number.
-/

namespace Posix

/-- EOF sentinel of the stdio layer. -/
def EOF : Int := -1

/-- avr-libc device-get error code _FDEV_ERR. -/
def FDEV_ERR : Int := -1

/-- avr-libc device-get end-of-file code _FDEV_EOF. -/
def FDEV_EOF : Int := -2

/-- errno values, matching the index of the message in sys_errlist[]. -/
def EPERM : Nat := 1

def ENOENT : Nat := 2

def ENXIO : Nat := 6

def EBADF : Nat := 9

def ENOMEM : Nat := 12

def EACCES : Nat := 13

def EBUSY : Nat := 16

def EINVAL : Nat := 22

def ENFILE : Nat := 23

def EMFILE : Nat := 24

def ENOSPC : Nat := 28

def EROFS : Nat := 30

def EBADMSG : Nat := 35

/-- POSIX open(2) flag constants (posix.h is not part of src/; standard
Linux values are used — only their distinctness matters here). -/
def O_RDONLY : Nat := 0

def O_WRONLY : Nat := 1

def O_RDWR : Nat := 2

def O_ACCMODE : Nat := 3

def O_CREAT : Nat := 64

def O_TRUNC : Nat := 512

def O_APPEND : Nat := 1024

/-- FatFS open-mode bits (fatfs.h is not part of src/; standard FatFS
values). -/
def FA_READ : Nat := 1

def FA_WRITE : Nat := 2

def FA_CREATE_ALWAYS : Nat := 8

def FA_OPEN_ALWAYS : Nat := 16

/-- lseek whence values. -/
def SEEK_SET : Nat := 0

def SEEK_CUR : Nat := 1

def SEEK_END : Nat := 2

/-- From src/posix/posix.c lines 2114-2179: total translation of a FatFS
result code (FRESULT, an integer) to a POSIX errno value.  The switch
covers FR_OK (0) through FR_INVALID_PARAMETER (19); everything else
falls through to EBADMSG. -/
def fatfs_to_errno (result : Nat) : Nat :=
  match result with
  | 0 => 0            -- FR_OK
  | 1 => 5            -- FR_DISK_ERR            -> EIO
  | 2 => EPERM        -- FR_INT_ERR
  | 3 => EBUSY        -- FR_NOT_READY
  | 4 => ENOENT       -- FR_NO_FILE
  | 5 => ENOENT       -- FR_NO_PATH
  | 6 => EINVAL       -- FR_INVALID_NAME
  | 7 => EACCES       -- FR_DENIED
  | 8 => EACCES       -- FR_EXIST
  | 9 => EINVAL       -- FR_INVALID_OBJECT
  | 10 => EROFS       -- FR_WRITE_PROTECTED
  | 11 => ENXIO       -- FR_INVALID_DRIVE
  | 12 => ENOSPC      -- FR_NOT_ENABLED
  | 13 => ENXIO       -- FR_NO_FILESYSTEM
  | 14 => EINVAL      -- FR_MKFS_ABORTED
  | 15 => EBUSY       -- FR_TIMEOUT
  | 16 => EBUSY       -- FR_LOCKED
  | 17 => ENOMEM      -- FR_NOT_ENOUGH_CORE
  | 18 => EMFILE      -- FR_TOO_MANY_OPEN_FILES
  | 19 => EINVAL      -- FR_INVALID_PARAMETER
  | _ => EBADMSG      -- no table entry: Bad Message

/-- Modelled from the spec: modecmp comes from stringsup.h/.c, which is
not part of src/.  The spec says each mode string "is matched explicitly
against its canonical form", i.e. an exact string comparison. -/
def modecmp (a b : String) : Bool := a == b

/-- From src/posix/posix.c lines 2418-2453: translate an fopen mode
string to open(2) flags, or -1 for an invalid mode.  Note the
append+read-write branch: it computes its flag combination and then
returns -1 unconditionally, exactly as in the source. -/
def posix_fopen_modes_to_open (mode : String) : Int :=
  if modecmp mode "r" || modecmp mode "rb" then
    (O_RDONLY : Int)
  else if modecmp mode "r+" || modecmp mode "r+b" || modecmp mode "rb+" then
    ((O_RDWR ||| O_TRUNC : Nat) : Int)
  else if modecmp mode "w" || modecmp mode "wb" then
    ((O_WRONLY ||| O_CREAT ||| O_TRUNC : Nat) : Int)
  else if modecmp mode "w+" || modecmp mode "w+b" || modecmp mode "wb+" then
    ((O_RDWR ||| O_CREAT ||| O_TRUNC : Nat) : Int)
  else if modecmp mode "a" || modecmp mode "ab" then
    ((O_WRONLY ||| O_CREAT ||| O_APPEND : Nat) : Int)
  else if modecmp mode "a+" || modecmp mode "a+b" || modecmp mode "ab+" then
    -- the source computes flag = O_RDWR | O_CREAT | O_APPEND here and
    -- then executes return(-1), so the computed flags are discarded
    let _flag := ((O_RDWR ||| O_CREAT ||| O_APPEND : Nat) : Int)
    (-1 : Int)
  else
    (-1 : Int)                                    -- invalid mode

/-- A FatFS FIL object: the contents of the open file and the current
file position.  f_size(fh) is data.length and f_tell(fh) is fptr. -/
structure Fil where
  data : List Nat
  fptr : Nat
deriving DecidableEq

/-- The function pointer stored in stream->get: NULL, fatfs_getc, or a
console (fdevopen-registered) get routine. -/
inductive GetKind where
  | gnone
  | gfatfs
  | gcons
deriving DecidableEq

/-- The function pointer stored in stream->put: NULL, fatfs_putc, or a
console put routine. -/
inductive PutKind where
  | pnone
  | pfatfs
  | pcons
deriving DecidableEq

/-- An avr-libc FILE record as used by posix.c.  Flag bits become Boolean
fields; udata is the bound FatFS FIL (NULL for console streams). -/
structure StreamRec where
  rd : Bool                 -- __SRD
  wr : Bool                 -- __SWR
  sstr : Bool               -- __SSTR  (string/memory-backed stream)
  smalloc : Bool            -- __SMALLOC
  sunget : Bool             -- __SUNGET (one-byte pushback pending)
  seof : Bool               -- __SEOF
  serr : Bool               -- __SERR
  unget : Int               -- the pushback byte
  len : Int                 -- logical read/write count
  buf : List Nat            -- remaining bytes of a string-backed stream
  getfn : GetKind
  putfn : PutKind
  udata : Option Fil        -- fdev_get_udata / fdev_set_udata
deriving DecidableEq

/-- Process-wide state of the layer: the descriptor table __iob[] and
errno. -/
structure St where
  tbl : List (Option StreamRec)
  err : Nat
deriving DecidableEq

/-- From src/posix/posix.c lines 195-202: handles 0..2 are the serial
console. -/
def isatty (fileno : Int) : Bool := decide (0 ≤ fileno ∧ fileno ≤ 2)

/-- From src/posix/posix.c lines 753-770: fileno_to_stream returns
__iob[fileno], or NULL (setting errno = EBADF) when fileno is out of
bounds or the slot is free. -/
def fileno_to_stream (s : St) (fileno : Int) : Option StreamRec × St :=
  if fileno < 0 ∨ (s.tbl.length : Int) ≤ fileno then
    (none, { s with err := EBADF })
  else
    match s.tbl.getD fileno.toNat none with
    | none => (none, { s with err := EBADF })
    | some st => (some st, s)

/-- From src/posix/posix.c lines 2275-2299: fileno_to_fatfs rejects
console handles, resolves the stream, and returns its bound FIL (NULL
with errno = EBADF when there is none). -/
def fileno_to_fatfs (s : St) (fileno : Int) : Option Fil × St :=
  if isatty fileno then
    (none, { s with err := EBADF })
  else
    match fileno_to_stream s fileno with
    | (none, s1) => (none, s1)
    | (some st, s1) =>
      match st.udata with
      | none => (none, { s1 with err := EBADF })
      | some fh => (some fh, s1)

/-- From src/posix/posix.c lines 2310-2344: free_file_descriptor rejects
console handles and unresolvable handles, otherwise frees the bound FIL
(if any) and any owned buffer, clears the slot (__iob[fileno] = NULL)
and frees the record.  The frees have no observable effect beyond the
slot becoming empty. -/
def free_file_descriptor (s : St) (fileno : Int) : Int × St :=
  if isatty fileno then
    (-1, { s with err := EBADF })
  else
    match fileno_to_stream s fileno with
    | (none, s1) => (-1, s1)
    | (some _, s1) => (fileno, { s1 with tbl := s1.tbl.set fileno.toNat none })

/-- The scan loop of new_file_descriptor (src/posix/posix.c lines
2361-2385): walk __iob[] from index 0, skip the console slots
(isatty(i), i.e. i <= 2 since i is non-negative), and stop at the first
free slot.  The list argument is the remaining suffix of the table and i
is the index of its head. -/
def scan_free : List (Option StreamRec) → Nat → Option Nat
  | [], _ => none
  | slot :: rest, i =>
    if i ≤ 2 then scan_free rest (i + 1)
    else
      match slot with
      | none => some i
      | some _ => scan_free rest (i + 1)

/-- A calloc-zeroed FIL. -/
def freshFil : Fil := ⟨[], 0⟩

/-- A calloc-zeroed FILE record with a calloc-zeroed FIL attached via
fdev_set_udata, as built inside new_file_descriptor. -/
def freshRec : StreamRec :=
  { rd := false, wr := false, sstr := false, smalloc := false,
    sunget := false, seof := false, serr := false, unget := 0, len := 0,
    buf := [], getfn := .gnone, putfn := .pnone, udata := some freshFil }

/-- From src/posix/posix.c lines 2355-2388: allocate a descriptor.  The
first free non-console slot receives a calloc-ed FILE and FIL pair;
either calloc failing reports ENOMEM (undoing the partial allocation);
no free slot reports ENFILE ("File table overflow").  allocStream and
allocFil are the outcomes of the two calloc calls. -/
def new_file_descriptor (allocStream allocFil : Bool) (s : St) : Int × St :=
  match scan_free s.tbl 0 with
  | some i =>
    if allocStream = false then (-1, { s with err := ENOMEM })
    else if allocFil = false then (-1, { s with err := ENOMEM })
    else ((i : Int), { s with tbl := s.tbl.set i (some freshRec) })
  | none => (-1, { s with err := ENFILE })

/-- Update the record stored at a (valid, occupied) slot in place; used
to model mutation through the stream pointer. -/
def modify_slot (s : St) (fileno : Int) (f : StreamRec → StreamRec) : St :=
  match s.tbl.getD fileno.toNat none with
  | none => s
  | some st => { s with tbl := s.tbl.set fileno.toNat (some (f st)) }

/-- From src/posix/posix.c lines 895-993: open(2).  The engine verdicts
are arguments: openRes is the FRESULT of f_open, seekRes the FRESULT of
the append-mode f_lseek(fh, f_size(fh)), and openedFil the engine state
of the file when f_open succeeds.  Each failure after allocation rolls
the allocation back through free_file_descriptor, exactly as in the
source. -/
def posix_open (allocStream allocFil : Bool) (openRes seekRes : Nat)
    (openedFil : Fil) (flags : Nat) (s : St) : Int × St :=
  let s0 := { s with err := 0 }
  let _fatfs_modes :=
    (if flags &&& O_ACCMODE = O_RDWR then FA_READ ||| FA_WRITE
     else if flags &&& O_ACCMODE = O_RDONLY then FA_READ
     else FA_WRITE) |||
    (if flags &&& O_CREAT ≠ 0 then
       (if flags &&& O_TRUNC ≠ 0 then FA_CREATE_ALWAYS else FA_OPEN_ALWAYS)
     else 0)
  let alloc := new_file_descriptor allocStream allocFil s0
  let fileno := alloc.fst
  let s1 := alloc.snd
  match fileno_to_stream s1 fileno with
  | (none, s2) =>
    (-1, (free_file_descriptor s2 fileno).snd)
  | (some _, s2) =>
    match fileno_to_fatfs s2 fileno with
    | (none, s3) =>
      (-1, { (free_file_descriptor s3 fileno).snd with err := EBADF })
    | (some _, s3) =>
      if openRes ≠ 0 then
        (-1, (free_file_descriptor { s3 with err := fatfs_to_errno openRes } fileno).snd)
      else
        -- f_open succeeded: the FIL now holds the opened file
        let s4 := modify_slot s3 fileno (fun st => { st with udata := some openedFil })
        if flags &&& O_APPEND ≠ 0 ∧ seekRes ≠ 0 then
          -- append seek failed: f_close(fh) (no table effect), roll back
          (-1, (free_file_descriptor { s4 with err := fatfs_to_errno seekRes } fileno).snd)
        else
          let s5 :=
            if flags &&& O_APPEND ≠ 0 then
              -- f_lseek(fh, f_size(fh)) succeeded
              modify_slot s4 fileno (fun st =>
                { st with udata := some { openedFil with fptr := openedFil.data.length } })
            else s4
          -- bind get/put and assign the whole flag mask per access mode
          let s6 := modify_slot s5 fileno (fun st =>
            if flags &&& O_ACCMODE = O_RDWR then
              { st with putfn := .pfatfs, getfn := .gfatfs,
                        rd := true, wr := true, sstr := false, smalloc := false,
                        sunget := false, seof := false, serr := false }
            else if flags &&& O_ACCMODE = O_RDONLY then
              { st with putfn := .pnone, getfn := .gfatfs,
                        rd := true, wr := false, sstr := false, smalloc := false,
                        sunget := false, seof := false, serr := false }
            else
              { st with putfn := .pfatfs, getfn := .gnone,
                        rd := false, wr := true, sstr := false, smalloc := false,
                        sunget := false, seof := false, serr := false })
          (fileno, s6)

/-- From src/posix/posix.c lines 685-714: close(2).  closeRes is the
FRESULT of the engine-level f_close.  The descriptor is freed
unconditionally after the engine close; the engine verdict only decides
the return value and errno. -/
def close (closeRes : Nat) (fileno : Int) (s : St) : Int × St :=
  let s0 := { s with err := 0 }
  match fileno_to_stream s0 fileno with
  | (none, s1) => (-1, s1)
  | (some _, s1) =>
    match fileno_to_fatfs s1 fileno with
    | (none, s2) => (-1, s2)
    | (some _, s2) =>
      let s3 := (free_file_descriptor s2 fileno).snd
      if closeRes ≠ 0 then (-1, { s3 with err := fatfs_to_errno closeRes })
      else (0, s3)

/-- From src/posix/posix.c lines 617-656: lseek(2).  seekFn is the
engine: given the absolute target position it returns the FRESULT of
f_lseek and the file position the engine actually ended up at (f_tell
afterwards).  Note that the source executes stream->flags |= __SUNGET,
i.e. it SETS the pending-pushback bit. -/
def lseek (seekFn : Int → Nat × Nat) (fileno : Int) (position : Int)
    (whence : Nat) (s : St) : Int × St :=
  let s0 := { s with err := 0 }
  match fileno_to_fatfs s0 fileno with
  | (none, s1) => (-1, { s1 with err := EMFILE })
  | (some fh, s1) =>
    if isatty fileno then (-1, s1)
    else
      let s2 := modify_slot s1 fileno (fun st => { st with sunget := true })
      let position1 :=
        if whence = SEEK_END then position + (fh.data.length : Int)
        else if whence = SEEK_CUR then position + (fh.fptr : Int)
        else position
      let r := seekFn position1
      let res := r.fst
      let newPtr := r.snd
      let s3 := modify_slot s2 fileno (fun st => { st with udata := some { fh with fptr := newPtr } })
      if res ≠ 0 then (-1, { s3 with err := fatfs_to_errno res })
      else if position1 ≠ (newPtr : Int) then (-1, s3)
      else ((newPtr : Int), s3)

/-- f_read(fh, buf, n, &size) against the concrete file model: on an
injected engine failure (engRes ≠ FR_OK) nothing is delivered; otherwise
the bytes from the current position are delivered (short at
end-of-file) and the position advances. -/
def f_read_n (engRes : Nat) (fh : Fil) (n : Nat) : Nat × List Nat × Fil :=
  if engRes ≠ 0 then (engRes, [], fh)
  else
    let out := ((fh.data.drop fh.fptr).take n).map (· % 256)
    (0, out, { fh with fptr := fh.fptr + out.length })

/-- From src/posix/posix.c lines 1984-2059: fatfs_getc, the line-ending
normalizer over the engine's byte stream.  r1 and r2 are the FRESULTs of
the (at most) two f_read calls.  A carriage-return remembers
pos = f_tell(fh), peeks one byte, and either consumes a following
newline, or seeks back to pos, or treats end-of-file as a line end; in
every case a single newline symbol is returned.  The stream's pushback
slot (sunget/unget) is never touched. -/
def fatfs_getc (r1 r2 : Nat) (st : StreamRec) : Int × StreamRec :=
  match st.udata with
  | none => (EOF, st)                             -- errno = EBADF
  | some fh =>
    let a := f_read_n r1 fh 1
    let res := a.fst
    let out := a.snd.fst
    let fh1 := a.snd.snd
    if res ≠ 0 ∨ out.length ≠ 1 then
      (EOF, { st with seof := true, udata := some fh1 })
    else
      let c := out.headD 0
      if c = 13 then
        -- PEEK forward one character; pos = f_tell(fh)
        let pos := fh1.fptr
        let b := f_read_n r2 fh1 1
        let res2 := b.fst
        let out2 := b.snd.fst
        let fh2 := b.snd.snd
        if res2 ≠ 0 ∨ out2.length ≠ 1 then
          ((10 : Int), { st with udata := some fh2 })   -- CR at EOF: newline
        else
          let c2 := out2.headD 0
          if c2 ≠ 10 then
            -- bare CR: move the file pointer back to just after the CR
            ((10 : Int), { st with udata := some { fh2 with fptr := pos } })
          else
            ((10 : Int), { st with udata := some fh2 }) -- CRLF consumed
      else
        ((c : Int), { st with udata := some fh1 })

/-- From src/posix/posix.c lines 214-265: fgetc.  conget is the byte (or
negative code) produced by a console get routine; r1 r2 are engine
verdicts threaded to fatfs_getc.  A pending pushback byte is drained
first; string-backed streams read from their buffer; device streams
dispatch through stream->get. -/
def fgetc (conget : Int) (r1 r2 : Nat) (stream : Option StreamRec) :
    Int × Option StreamRec :=
  match stream with
  | none => (EOF, none)                           -- errno = EBADF
  | some st =>
    if st.rd = false then (EOF, some st)
    else if st.sunget = true then
      (st.unget, some { st with sunget := false, len := st.len + 1 })
    else if st.sstr = true then
      let c := st.buf.headD 0
      if c = 0 then (EOF, some { st with seof := true })
      else ((c : Int), some { st with buf := st.buf.tail, len := st.len + 1 })
    else
      match st.getfn with
      | .gnone => (EOF, some st)
      | .gfatfs =>
        let a := fatfs_getc r1 r2 st
        let c := a.fst
        let st1 := a.snd
        if c < 0 then
          (EOF, some (if c = FDEV_ERR then { st1 with serr := true }
                      else { st1 with seof := true }))
        else (c, some { st1 with len := st1.len + 1 })
      | .gcons =>
        let c := conget
        if c < 0 then
          (EOF, some (if c = FDEV_ERR then { st with serr := true }
                      else { st with seof := true }))
        else (c, some { st with len := st.len + 1 })

/-- From src/posix/posix.c lines 366-388: ungetc.  The stream is the
record at slot fileno; fileno(stream) resolves back to that slot when it
is a registered stream, else -1; a handle that is not a console is
rejected before anything else.  On success the pushback byte is stored,
end-of-file is cleared and the logical read count is decremented. -/
def ungetc (c : Int) (fileno : Int) (s : St) : Int × St :=
  let fd : Int :=
    if 0 ≤ fileno ∧ fileno < (s.tbl.length : Int) ∧
        s.tbl.getD fileno.toNat none ≠ none then fileno else -1
  if isatty fd = false then (EOF, s)
  else if c = EOF then (EOF, s)
  else
    match s.tbl.getD fileno.toNat none with
    | none => (EOF, s)
    | some st =>
      if st.sunget = true then (EOF, s)
      else if st.rd = false then (EOF, s)
      else
        (c, modify_slot s fileno (fun st =>
              { st with sunget := true, seof := false, unget := c,
                        len := st.len - 1 }))

/-- Overwrite the front of a fixed-size buffer with freshly read bytes,
leaving the rest of the buffer as it was (the C functions write through
a char pointer into the caller's buffer). -/
def overwrite : List Nat → List Nat → List Nat
  | buf, [] => buf
  | [], _ => []
  | _ :: bs, x :: xs => x :: overwrite bs xs

/-- The while(count--) fgetc loop of the TTY branch of read(2): collect
bytes until a negative result, consuming one console-get outcome per
iteration. -/
def ttyLoop (congets : List Int) (stream : Option StreamRec) :
    Nat → List Nat × Option StreamRec
  | 0 => ([], stream)
  | n + 1 =>
    let a := fgetc (congets.headD FDEV_EOF) 0 0 stream
    let c := a.fst
    let st1 := a.snd
    if c < 0 then ([], st1)
    else
      let b := ttyLoop congets.tail st1 n
      ((c.toNat % 256) :: b.fst, b.snd)

/-- From src/posix/posix.c lines 1006-1059: read(2).  The very first
statement is *(char *)buf = 0, before any validation.  congets feeds the
TTY branch; engRes is the FRESULT of the engine f_read on the FatFS
branch.  The console streams are assumed registered and distinct, so
stream == stdin / stdout / stderr becomes a test of the file number
against 0 / 1 / 2 (on an occupied slot). -/
def read (congets : List Int) (engRes : Nat) (fd : Int) (buf : List Nat)
    (count : Nat) (s : St) : Int × List Nat × St :=
  let buf0 := buf.set 0 0                         -- *(char *) buf = 0
  let s0 := { s with err := 0 }
  let a := fileno_to_stream s0 fd
  let stream := a.fst
  let s1 := a.snd
  if fd = 0 ∧ stream.isSome then
    -- stream == stdin: ungetc is undefined for read (sets __SUNGET)
    let s2 := modify_slot s1 fd (fun st => { st with sunget := true })
    let b := ttyLoop congets (s2.tbl.getD 0 none) count
    let got := b.fst
    let s3 := { s2 with tbl := s2.tbl.set 0 b.snd }
    ((got.length : Int), overwrite buf0 got, s3)
  else if (fd = 1 ∨ fd = 2) ∧ stream.isSome then
    (-1, buf0, s1)                                -- stdout/stderr: error
  else
    match fileno_to_fatfs s1 fd with
    | (none, s2) => (-1, buf0, { s2 with err := EBADF })
    | (some fh, s2) =>
      let c := f_read_n engRes fh count
      let res := c.fst
      let out := c.snd.fst
      let fh1 := c.snd.snd
      let s3 := modify_slot s2 fd (fun st => { st with udata := some fh1 })
      if res ≠ 0 then (-1, buf0, { s3 with err := fatfs_to_errno res })
      else ((out.length : Int), overwrite buf0 out, s3)

/-- The bytes that a given call to read delivers into the caller's
buffer: the TTY loop's collected bytes on the stdin branch, nothing on
the failing branches, and the engine-delivered bytes on the FatFS
branch.  Mirrors the branch structure of read. -/
def read_written (congets : List Int) (engRes : Nat) (fd : Int)
    (count : Nat) (s : St) : List Nat :=
  let a := fileno_to_stream { s with err := 0 } fd
  if fd = 0 ∧ a.fst.isSome then
    (ttyLoop congets
      ((modify_slot a.snd fd (fun st => { st with sunget := true })).tbl.getD 0 none)
      count).fst
  else if (fd = 1 ∨ fd = 2) ∧ a.fst.isSome then []
  else
    match fileno_to_fatfs a.snd fd with
    | (none, _) => []
    | (some fh, _) => (f_read_n engRes fh count).snd.fst

/-- A registered console stream record (readable and writable, console
get/put, no FIL). -/
def conRec : StreamRec :=
  { rd := true, wr := true, sstr := false, smalloc := false,
    sunget := false, seof := false, serr := false, unget := 0, len := 0,
    buf := [], getfn := .gcons, putfn := .pcons, udata := none }

/-- A read-only FatFS-backed stream over the given file contents and
position. -/
def fileRec (d : List Nat) (p : Nat) : StreamRec :=
  { rd := true, wr := false, sstr := false, smalloc := false,
    sunget := false, seof := false, serr := false, unget := 0, len := 0,
    buf := [], getfn := .gfatfs, putfn := .pnone, udata := some ⟨d, p⟩ }

/-- Sample state: consoles registered, all three file slots free. -/
def stEmpty : St :=
  { tbl := [some conRec, some conRec, some conRec, none, none, none], err := 0 }

/-- Sample state: consoles registered, slot 3 holds an open file over
bytes [7,8,9] at position 1. -/
def stFile : St :=
  { tbl := [some conRec, some conRec, some conRec, some (fileRec [7, 8, 9] 1)],
    err := 0 }

/-- Sample state for the lseek pushback defect: slot 3 holds an open
file over [1,2,3,4,5] at position 0 whose stale unget byte is 42. -/
def stStale : St :=
  { tbl := [some conRec, some conRec, some conRec,
            some { fileRec [1, 2, 3, 4, 5] 0 with unget := 42 }],
    err := 0 }

-- ===================================================================
-- Helper lemmas
-- ===================================================================

theorem getD_set_self {α : Type} (l : List (Option α)) (i : Nat) (a : Option α)
    (h : i < l.length) : (l.set i a).getD i none = a := by
  induction l generalizing i with
  | nil => simp at h
  | cons x xs ih =>
    cases i with
    | zero => rfl
    | succ n => simpa using ih n (by simpa using h)

theorem set_none_id {α : Type} (l : List (Option α)) (i : Nat)
    (h : l.getD i none = none) : l.set i none = l := by
  induction l generalizing i with
  | nil => rfl
  | cons x xs ih =>
    cases i with
    | zero => simp_all [List.getD]
    | succ n => simpa using ih n (by simpa using h)

theorem set_set_self {α : Type} (l : List α) (i : Nat) (a b : α) :
    (l.set i a).set i b = l.set i b := by
  induction l generalizing i with
  | nil => rfl
  | cons x xs ih =>
    cases i with
    | zero => rfl
    | succ n => simp [List.set, ih]

theorem scan_free_some_facts (l : List (Option StreamRec)) :
    ∀ i j : Nat, scan_free l i = some j →
      i ≤ j ∧ 3 ≤ j ∧ j - i < l.length ∧ l.getD (j - i) none = none := by
  induction l with
  | nil => intro i j h; simp [scan_free] at h
  | cons slot rest ih =>
    intro i j h
    by_cases hi : i ≤ 2
    · simp only [scan_free] at h
      rw [if_pos hi] at h
      obtain ⟨h1, h2, h3, h4⟩ := ih (i + 1) j h
      have hji : j - i = (j - (i + 1)) + 1 := by omega
      refine ⟨by omega, h2, by simp only [List.length_cons]; omega, ?_⟩
      rw [hji]; simpa using h4
    · simp only [scan_free] at h
      rw [if_neg hi] at h
      cases slot with
      | none =>
        simp only [Option.some.injEq] at h
        subst h
        exact ⟨le_refl _, by omega, by simp, by simp⟩
      | some st =>
        obtain ⟨h1, h2, h3, h4⟩ := ih (i + 1) j h
        have hji : j - i = (j - (i + 1)) + 1 := by omega
        refine ⟨by omega, h2, by simp only [List.length_cons]; omega, ?_⟩
        rw [hji]; simpa using h4

theorem scan_free_min (l : List (Option StreamRec)) :
    ∀ i j : Nat, scan_free l i = some j →
      ∀ k, k < j - i → 2 < i + k → l.getD k none ≠ none := by
  induction l with
  | nil => intro i j h; simp [scan_free] at h
  | cons slot rest ih =>
    intro i j h k hk h2k
    by_cases hi : i ≤ 2
    · simp only [scan_free] at h
      rw [if_pos hi] at h
      cases k with
      | zero => omega
      | succ m =>
        simpa using ih (i + 1) j h m (by omega) (by omega)
    · simp only [scan_free] at h
      rw [if_neg hi] at h
      cases slot with
      | none =>
        simp only [Option.some.injEq] at h
        omega
      | some st =>
        cases k with
        | zero => simp
        | succ m =>
          simpa using ih (i + 1) j h m (by omega) (by omega)

theorem scan_free_none_facts (l : List (Option StreamRec)) :
    ∀ i : Nat, scan_free l i = none →
      ∀ k, k < l.length → 2 < i + k → l.getD k none ≠ none := by
  induction l with
  | nil => intro i _ k hk; simp at hk
  | cons slot rest ih =>
    intro i h k hklen h2k
    by_cases hi : i ≤ 2
    · simp only [scan_free] at h
      rw [if_pos hi] at h
      cases k with
      | zero => omega
      | succ m =>
        simpa using ih (i + 1) h m (by simpa using hklen) (by omega)
    · simp only [scan_free] at h
      rw [if_neg hi] at h
      cases slot with
      | none => simp at h
      | some st =>
        cases k with
        | zero => simp
        | succ m =>
          simpa using ih (i + 1) h m (by simpa using hklen) (by omega)

theorem isatty_false_of_3le (fd : Nat) (h : 3 ≤ fd) : isatty (fd : Int) = false := by
  simp only [isatty, decide_eq_false_iff_not, not_and]
  intro _
  omega

theorem fileno_to_stream_occupied (s : St) (fd : Nat) (st : StreamRec)
    (hlen : fd < s.tbl.length) (hslot : s.tbl.getD fd none = some st) :
    fileno_to_stream s (fd : Int) = (some st, s) := by
  rw [fileno_to_stream, if_neg (by omega)]
  rw [Int.toNat_natCast, hslot]

theorem fileno_to_stream_neg (s : St) (fileno : Int) (h : fileno < 0) :
    fileno_to_stream s fileno = (none, { s with err := EBADF }) := by
  rw [fileno_to_stream, if_pos (Or.inl h)]

theorem fileno_to_fatfs_bound (s : St) (fd : Nat) (st : StreamRec) (fh : Fil)
    (h3 : 3 ≤ fd) (hlen : fd < s.tbl.length) (hslot : s.tbl.getD fd none = some st)
    (hud : st.udata = some fh) :
    fileno_to_fatfs s (fd : Int) = (some fh, s) := by
  simp only [fileno_to_fatfs, isatty_false_of_3le fd h3, Bool.false_eq_true,
    if_false, fileno_to_stream_occupied s fd st hlen hslot, hud]

theorem free_file_descriptor_frees (s : St) (fd : Nat) (st : StreamRec)
    (h3 : 3 ≤ fd) (hlen : fd < s.tbl.length) (hslot : s.tbl.getD fd none = some st) :
    free_file_descriptor s (fd : Int) = ((fd : Int), { s with tbl := s.tbl.set fd none }) := by
  rw [free_file_descriptor, isatty_false_of_3le fd h3]
  simp only [Bool.false_eq_true, if_false]
  rw [fileno_to_stream_occupied s fd st hlen hslot, Int.toNat_natCast]

theorem free_file_descriptor_neg (s : St) (fileno : Int) (h : fileno < 0) :
    free_file_descriptor s fileno = (-1, { s with err := EBADF }) := by
  have hat : isatty fileno = false := by
    simp only [isatty, decide_eq_false_iff_not, not_and]
    intro h0
    omega
  rw [free_file_descriptor, hat]
  simp only [Bool.false_eq_true, if_false]
  rw [fileno_to_stream_neg s fileno h]

theorem modify_slot_occupied (s : St) (fd : Nat) (st : StreamRec)
    (f : StreamRec → StreamRec) (hslot : s.tbl.getD fd none = some st) :
    modify_slot s (fd : Int) f = { s with tbl := s.tbl.set fd (some (f st)) } := by
  rw [modify_slot, Int.toNat_natCast, hslot]

-- ===================================================================
-- Claim theorems
-- ===================================================================

/-- Claim C9: fatfs_to_errno is a total function on engine result codes:
FR_OK maps to 0, each listed engine code maps to its fixed POSIX code
(disk error to EIO = 5, the not-found variants to ENOENT,
write-protected to EROFS, too-many-open-files to EMFILE, etc.), and
every engine result outside the table (codes 20 and above) maps to the
reserved fallback EBADMSG, so no input is unmapped. -/
theorem fatfs_to_errno_total (r : Nat) (h : 20 ≤ r) :
    fatfs_to_errno r = EBADMSG ∧
    fatfs_to_errno 0 = 0 ∧ fatfs_to_errno 1 = 5 ∧ fatfs_to_errno 2 = EPERM ∧
    fatfs_to_errno 3 = EBUSY ∧ fatfs_to_errno 4 = ENOENT ∧
    fatfs_to_errno 5 = ENOENT ∧ fatfs_to_errno 6 = EINVAL ∧
    fatfs_to_errno 7 = EACCES ∧ fatfs_to_errno 8 = EACCES ∧
    fatfs_to_errno 9 = EINVAL ∧ fatfs_to_errno 10 = EROFS ∧
    fatfs_to_errno 11 = ENXIO ∧ fatfs_to_errno 12 = ENOSPC ∧
    fatfs_to_errno 13 = ENXIO ∧ fatfs_to_errno 14 = EINVAL ∧
    fatfs_to_errno 15 = EBUSY ∧ fatfs_to_errno 16 = EBUSY ∧
    fatfs_to_errno 17 = ENOMEM ∧ fatfs_to_errno 18 = EMFILE ∧
    fatfs_to_errno 19 = EINVAL := by
  refine ⟨?_, by decide⟩
  obtain ⟨k, rfl⟩ : ∃ k, r = k + 20 := ⟨r - 20, by omega⟩
  rfl

/-- Witness for C9 at the concrete out-of-table code 25. -/
theorem fatfs_to_errno_total_witness : fatfs_to_errno 25 = EBADMSG :=
  (fatfs_to_errno_total 25 (by decide)).1

/-- Claim C8: for each of the mode strings a+, a+b, ab+ the function
computes the read-write-create-append combination but returns -1
unconditionally, so those modes are unreachable; every other mode string
of the grammar returns its access-mode-plus-creation-policy flags, and
any unrecognized string returns -1. -/
theorem posix_fopen_modes_spec (s : String)
    (h : s ∉ ["r", "rb", "r+", "r+b", "rb+", "w", "wb", "w+", "w+b", "wb+",
              "a", "ab", "a+", "a+b", "ab+"]) :
    posix_fopen_modes_to_open s = -1 ∧
    posix_fopen_modes_to_open "a+" = -1 ∧
    posix_fopen_modes_to_open "a+b" = -1 ∧
    posix_fopen_modes_to_open "ab+" = -1 ∧
    (-1 : Int) ≠ ((O_RDWR ||| O_CREAT ||| O_APPEND : Nat) : Int) ∧
    posix_fopen_modes_to_open "r" = (O_RDONLY : Int) ∧
    posix_fopen_modes_to_open "rb" = (O_RDONLY : Int) ∧
    posix_fopen_modes_to_open "r+" = ((O_RDWR ||| O_TRUNC : Nat) : Int) ∧
    posix_fopen_modes_to_open "r+b" = ((O_RDWR ||| O_TRUNC : Nat) : Int) ∧
    posix_fopen_modes_to_open "rb+" = ((O_RDWR ||| O_TRUNC : Nat) : Int) ∧
    posix_fopen_modes_to_open "w" = ((O_WRONLY ||| O_CREAT ||| O_TRUNC : Nat) : Int) ∧
    posix_fopen_modes_to_open "wb" = ((O_WRONLY ||| O_CREAT ||| O_TRUNC : Nat) : Int) ∧
    posix_fopen_modes_to_open "w+" = ((O_RDWR ||| O_CREAT ||| O_TRUNC : Nat) : Int) ∧
    posix_fopen_modes_to_open "w+b" = ((O_RDWR ||| O_CREAT ||| O_TRUNC : Nat) : Int) ∧
    posix_fopen_modes_to_open "wb+" = ((O_RDWR ||| O_CREAT ||| O_TRUNC : Nat) : Int) ∧
    posix_fopen_modes_to_open "a" = ((O_WRONLY ||| O_CREAT ||| O_APPEND : Nat) : Int) ∧
    posix_fopen_modes_to_open "ab" = ((O_WRONLY ||| O_CREAT ||| O_APPEND : Nat) : Int) := by
  refine ⟨?_, by decide⟩
  simp only [List.mem_cons, List.not_mem_nil, or_false, not_or] at h
  obtain ⟨h1, h2, h3, h4, h5, h6, h7, h8, h9, h10, h11, h12, h13, h14, h15⟩ := h
  simp [posix_fopen_modes_to_open, modecmp, h1, h2, h3, h4, h5, h6, h7, h8,
    h9, h10, h11, h12, h13, h14, h15]

/-- Witness for C8 at the concrete unrecognized mode string "x". -/
theorem posix_fopen_modes_spec_witness : posix_fopen_modes_to_open "x" = -1 :=
  (posix_fopen_modes_spec "x" (by decide)).1

/-- Claim C3: new_file_descriptor skips the three reserved console slots
and returns the smallest handle whose slot is free; the exhaustion error
ENFILE ("too many open files" condition, message "File table overflow")
is reported if and only if every non-console slot is occupied, never
earlier (an allocation failure with free slots reports ENOMEM, not the
exhaustion error); on an otherwise-empty table the first allocation
returns handle 3. -/
theorem new_file_descriptor_spec (s : St) (aS aF : Bool) :
    ((∀ i, 3 ≤ i → i < s.tbl.length → s.tbl.getD i none ≠ none) →
       new_file_descriptor aS aF s = (-1, { s with err := ENFILE })) ∧
    (∀ j, 3 ≤ j → j < s.tbl.length → s.tbl.getD j none = none →
       (∀ k, 3 ≤ k → k < j → s.tbl.getD k none ≠ none) →
       (aS = true → aF = true →
          new_file_descriptor aS aF s =
            ((j : Int), { s with tbl := s.tbl.set j (some freshRec) })) ∧
       ((new_file_descriptor aS aF s).fst = -1 →
          (new_file_descriptor aS aF s).snd.err = ENOMEM)) := by
  constructor
  · intro hfull
    cases hscan : scan_free s.tbl 0 with
    | none => simp [new_file_descriptor, hscan]
    | some j =>
      obtain ⟨-, hj3, hjlen, hjfree⟩ := scan_free_some_facts s.tbl 0 j hscan
      rw [Nat.sub_zero] at hjlen hjfree
      exact absurd hjfree (hfull j hj3 hjlen)
  · intro j hj3 hjlen hjfree hmin
    have hscan : scan_free s.tbl 0 = some j := by
      cases hscan : scan_free s.tbl 0 with
      | none =>
        exact absurd hjfree (scan_free_none_facts s.tbl 0 hscan j hjlen (by omega))
      | some j2 =>
        obtain ⟨-, hj23, hj2len, hj2free⟩ := scan_free_some_facts s.tbl 0 j2 hscan
        rw [Nat.sub_zero] at hj2len hj2free
        have hmin2 := scan_free_min s.tbl 0 j2 hscan
        have : j2 = j := by
          rcases Nat.lt_trichotomy j2 j with hlt | heq | hgt
          · exact absurd hj2free (hmin j2 hj23 hlt)
          · exact heq
          · exact absurd hjfree (hmin2 j (by omega) (by omega))
        exact congrArg some this
    refine ⟨?_, ?_⟩
    · intro hS hF
      subst hS; subst hF
      simp [new_file_descriptor, hscan]
    · intro hfst
      cases aS with
      | false => simp [new_file_descriptor, hscan]
      | true =>
        cases aF with
        | false => simp [new_file_descriptor, hscan]
        | true =>
          exfalso
          have hval : (new_file_descriptor true true s).fst = (j : Int) := by
            rw [new_file_descriptor, hscan]
            rfl
          rw [hval] at hfst
          omega

/-- Witness for C3: on the otherwise-empty sample table the first
allocation returns handle 3. -/
theorem new_file_descriptor_spec_witness :
    new_file_descriptor true true stEmpty =
      (3, { stEmpty with tbl := stEmpty.tbl.set 3 (some freshRec) }) :=
  ((new_file_descriptor_spec stEmpty true true).2 3 (by decide) (by decide)
    (by decide) (fun k hk1 hk2 => absurd hk2 (by omega))).1 rfl rfl

/-- Claim C2: for a valid non-console handle bound to an engine file
handle, close frees the descriptor unconditionally (the slot becomes
free) regardless of the engine close verdict; it returns 0 when the
engine close succeeds and -1 with errno set to the translated engine
code when it fails, so a failing close cannot leak a slot. -/
theorem close_frees_descriptor (closeRes : Nat) (fd : Nat) (s : St)
    (st : StreamRec) (fh : Fil) (h3 : 3 ≤ fd) (hlen : fd < s.tbl.length)
    (hslot : s.tbl.getD fd none = some st) (hud : st.udata = some fh) :
    (close closeRes (fd : Int) s).snd.tbl = s.tbl.set fd none ∧
    (closeRes = 0 →
       close closeRes (fd : Int) s = (0, { tbl := s.tbl.set fd none, err := 0 })) ∧
    (closeRes ≠ 0 →
       (close closeRes (fd : Int) s).fst = -1 ∧
       (close closeRes (fd : Int) s).snd.err = fatfs_to_errno closeRes) := by
  have hs0 : ({ s with err := 0 } : St).tbl = s.tbl := rfl
  have heval : close closeRes (fd : Int) s =
      (if closeRes ≠ 0 then
        (-1, { tbl := s.tbl.set fd none, err := fatfs_to_errno closeRes })
       else (0, { tbl := s.tbl.set fd none, err := 0 })) := by
    rw [close]
    rw [fileno_to_stream_occupied { s with err := 0 } fd st (by rw [hs0]; exact hlen)
      (by rw [hs0]; exact hslot)]
    simp only [fileno_to_fatfs_bound { s with err := 0 } fd st fh h3
      (by rw [hs0]; exact hlen) (by rw [hs0]; exact hslot) hud]
    simp only [free_file_descriptor_frees { s with err := 0 } fd st h3
      (by rw [hs0]; exact hlen) (by rw [hs0]; exact hslot)]
  rw [heval]
  by_cases hres : closeRes = 0
  · subst hres
    simp
  · rw [if_pos hres]
    simp [hres]

/-- Witness for C2: closing handle 3 of the sample state with an engine
verdict FR_OK frees the slot and returns 0. -/
theorem close_frees_descriptor_witness :
    close 0 3 stFile = (0, { tbl := stFile.tbl.set 3 none, err := 0 }) :=
  (close_frees_descriptor 0 3 stFile (fileRec [7, 8, 9] 1) ⟨[7, 8, 9], 1⟩
    (by decide) (by decide) (by decide) (by decide)).2.1 rfl

/-- Claim C1: if open fails at any stage after it has begun allocating
(descriptor allocation failure, stream or engine-handle lookup failure,
engine-level f_open failure, or failure of the seek-to-end performed
when O_APPEND is requested), it releases the allocated descriptor and
engine-handle pair before returning -1, so the descriptor table after
the failed call equals the table before the call. -/
theorem posix_open_fail_restores_table (aS aF : Bool) (openRes seekRes : Nat)
    (openedFil : Fil) (flags : Nat) (s : St)
    (hfail : (posix_open aS aF openRes seekRes openedFil flags s).fst = -1) :
    (posix_open aS aF openRes seekRes openedFil flags s).snd.tbl = s.tbl := by
  cases hscan : scan_free s.tbl 0 with
  | none =>
    have halloc : new_file_descriptor aS aF { s with err := 0 } =
        (-1, { tbl := s.tbl, err := ENFILE }) := by
      simp [new_file_descriptor, hscan]
    simp only [posix_open, halloc,
      fileno_to_stream_neg { tbl := s.tbl, err := ENFILE } (-1) (by omega),
      free_file_descriptor_neg { tbl := s.tbl, err := EBADF } (-1) (by omega)]
  | some j =>
    obtain ⟨-, hj3, hjlen, hjfree⟩ := scan_free_some_facts s.tbl 0 j hscan
    rw [Nat.sub_zero] at hjlen hjfree
    cases aS with
    | false =>
      have halloc : new_file_descriptor false aF { s with err := 0 } =
          (-1, { tbl := s.tbl, err := ENOMEM }) := by
        simp [new_file_descriptor, hscan]
      simp only [posix_open, halloc,
        fileno_to_stream_neg { tbl := s.tbl, err := ENOMEM } (-1) (by omega),
        free_file_descriptor_neg { tbl := s.tbl, err := EBADF } (-1) (by omega)]
    | true =>
      cases aF with
      | false =>
        have halloc : new_file_descriptor true false { s with err := 0 } =
            (-1, { tbl := s.tbl, err := ENOMEM }) := by
          simp [new_file_descriptor, hscan]
        simp only [posix_open, halloc,
          fileno_to_stream_neg { tbl := s.tbl, err := ENOMEM } (-1) (by omega),
          free_file_descriptor_neg { tbl := s.tbl, err := EBADF } (-1) (by omega)]
      | true =>
        have halloc : new_file_descriptor true true { s with err := 0 } =
            ((j : Int), { tbl := s.tbl.set j (some freshRec), err := 0 }) := by
          simp [new_file_descriptor, hscan]
        have hslot1 : (s.tbl.set j (some freshRec)).getD j none = some freshRec :=
          getD_set_self s.tbl j (some freshRec) hjlen
        have hlen1 : j < (s.tbl.set j (some freshRec)).length := by
          simpa using hjlen
        have h1 : fileno_to_stream { tbl := s.tbl.set j (some freshRec), err := 0 } (j : Int) =
            (some freshRec, { tbl := s.tbl.set j (some freshRec), err := 0 }) :=
          fileno_to_stream_occupied _ j freshRec hlen1 hslot1
        have h2 : fileno_to_fatfs { tbl := s.tbl.set j (some freshRec), err := 0 } (j : Int) =
            (some freshFil, { tbl := s.tbl.set j (some freshRec), err := 0 }) :=
          fileno_to_fatfs_bound _ j freshRec freshFil hj3 hlen1 hslot1 rfl
        by_cases hopen : openRes ≠ 0
        · have hfree : free_file_descriptor
              { tbl := s.tbl.set j (some freshRec), err := fatfs_to_errno openRes } (j : Int) =
              ((j : Int), { tbl := (s.tbl.set j (some freshRec)).set j none,
                            err := fatfs_to_errno openRes }) :=
            free_file_descriptor_frees _ j freshRec hj3 hlen1 hslot1
          simp only [posix_open, halloc, h1, h2, if_pos hopen, hfree]
          rw [set_set_self, set_none_id s.tbl j hjfree]
        · have hmod : modify_slot { tbl := s.tbl.set j (some freshRec), err := 0 } (j : Int)
              (fun st => { st with udata := some openedFil }) =
              { tbl := (s.tbl.set j (some freshRec)).set j
                  (some { freshRec with udata := some openedFil }), err := 0 } :=
            modify_slot_occupied _ j freshRec _ hslot1
          have hslot2 : (s.tbl.set j (some { freshRec with udata := some openedFil })).getD j none =
              some { freshRec with udata := some openedFil } :=
            getD_set_self s.tbl j _ hjlen
          have hlen2 : j < (s.tbl.set j (some { freshRec with udata := some openedFil })).length := by
            simpa using hjlen
          by_cases happ : flags &&& O_APPEND ≠ 0 ∧ seekRes ≠ 0
          · have hfree2 : free_file_descriptor
                { tbl := s.tbl.set j (some { freshRec with udata := some openedFil }),
                  err := fatfs_to_errno seekRes } (j : Int) =
                ((j : Int), { tbl := (s.tbl.set j (some { freshRec with udata := some openedFil })).set j none,
                              err := fatfs_to_errno seekRes }) :=
              free_file_descriptor_frees _ j _ hj3 hlen2 hslot2
            simp only [posix_open, halloc, h1, h2, if_neg hopen, hmod, set_set_self,
              if_pos happ, hfree2]
            exact set_none_id s.tbl j hjfree
          · exfalso
            have hval : (posix_open true true openRes seekRes openedFil flags s).fst = (j : Int) := by
              simp only [posix_open, halloc, h1, h2, if_neg hopen, hmod, set_set_self,
                if_neg happ]
            rw [hval] at hfail
            omega

/-- Witness for C1: opening with an engine f_open verdict FR_NO_FILE on
the sample empty table fails and leaves the table untouched. -/
theorem posix_open_fail_witness :
    (posix_open true true 4 0 ⟨[], 0⟩ 577 stEmpty).snd.tbl = stEmpty.tbl :=
  posix_open_fail_restores_table true true 4 0 ⟨[], 0⟩ 577 stEmpty (by decide)

theorem f_read_one (fh : Fil) (h : fh.fptr < fh.data.length) :
    f_read_n 0 fh 1 =
      (0, [fh.data.getD fh.fptr 0 % 256], { fh with fptr := fh.fptr + 1 }) := by
  have hout : ((fh.data.drop fh.fptr).take 1).map (fun x => x % 256) =
      [fh.data.getD fh.fptr 0 % 256] := by
    rw [List.drop_eq_getElem_cons h, List.getD_eq_getElem fh.data 0 h]
    rfl
  simp only [f_read_n, if_neg (by omega : ¬((0 : Nat) ≠ 0)), hout]
  rfl

theorem f_read_one_eof (fh : Fil) (h : fh.data.length ≤ fh.fptr) :
    f_read_n 0 fh 1 = (0, [], fh) := by
  simp [f_read_n, List.drop_eq_nil_of_le h]

/-- Claim C4: for a device-backed (FatFS) stream, fatfs_getc returns
every non-carriage-return byte unchanged (advancing the engine one
byte); on a carriage-return it returns a newline, consuming an
immediately following newline (CRLF), returning newline when the CR is
the last byte before end-of-file, and seeking the engine back to the
remembered position when the following byte is anything else (bare CR);
and it never touches the stream record's one-byte pushback slot
(sunget/unget), only the engine position. -/
theorem fatfs_getc_normalizes (st : StreamRec) (fh : Fil) (b : Nat)
    (hud : st.udata = some fh) (hlt : fh.fptr < fh.data.length)
    (hb : fh.data.getD fh.fptr 0 = b) (hbyte : b < 256) :
    ((fatfs_getc 0 0 st).snd.sunget = st.sunget ∧
     (fatfs_getc 0 0 st).snd.unget = st.unget) ∧
    (b ≠ 13 →
       fatfs_getc 0 0 st =
         ((b : Int), { st with udata := some { fh with fptr := fh.fptr + 1 } })) ∧
    (b = 13 → fh.fptr + 1 = fh.data.length →
       fatfs_getc 0 0 st =
         (10, { st with udata := some { fh with fptr := fh.fptr + 1 } })) ∧
    (b = 13 → fh.fptr + 1 < fh.data.length →
       fh.data.getD (fh.fptr + 1) 0 % 256 = 10 →
       fatfs_getc 0 0 st =
         (10, { st with udata := some { fh with fptr := fh.fptr + 2 } })) ∧
    (b = 13 → fh.fptr + 1 < fh.data.length →
       fh.data.getD (fh.fptr + 1) 0 % 256 ≠ 10 →
       fatfs_getc 0 0 st =
         (10, { st with udata := some { fh with fptr := fh.fptr + 1 } })) := by
  have hbmod : fh.data.getD fh.fptr 0 % 256 = b := by rw [hb]; omega
  have heval1 : f_read_n 0 fh 1 = (0, [b], { fh with fptr := fh.fptr + 1 }) := by
    rw [f_read_one fh hlt, hbmod]
  by_cases hcr : b = 13
  · subst hcr
    by_cases h2 : fh.fptr + 1 < fh.data.length
    · have heval2 : f_read_n 0 ({ fh with fptr := fh.fptr + 1 } : Fil) 1 =
          (0, [fh.data.getD (fh.fptr + 1) 0 % 256],
           { fh with fptr := fh.fptr + 1 + 1 }) := by
        rw [f_read_one { fh with fptr := fh.fptr + 1 } h2]
      generalize hv : fh.data.getD (fh.fptr + 1) 0 % 256 = v at heval2 ⊢
      by_cases hnl : v = 10
      · subst hnl
        have hres : fatfs_getc 0 0 st =
            (10, { st with udata := some { fh with fptr := fh.fptr + 2 } }) := by
          simp only [fatfs_getc, hud, heval1, heval2, List.headD_cons]
          norm_num
        refine ⟨by rw [hres]; exact ⟨rfl, rfl⟩, by intro hne; exact absurd rfl hne,
          ?_, ?_, ?_⟩
        · intro _ hlen; omega
        · intro _ _ _; exact hres
        · intro _ _ hne; exact absurd rfl hne
      · have hres : fatfs_getc 0 0 st =
            (10, { st with udata := some { fh with fptr := fh.fptr + 1 } }) := by
          simp only [fatfs_getc, hud, heval1, heval2, List.headD_cons, if_true]
          rw [if_neg (by norm_num), if_neg (by norm_num), if_pos hnl]
        refine ⟨by rw [hres]; exact ⟨rfl, rfl⟩, by intro hne; exact absurd rfl hne,
          ?_, ?_, ?_⟩
        · intro _ hlen; omega
        · intro _ _ h10; exact absurd h10 hnl
        · intro _ _ _; exact hres
    · have heval2 : f_read_n 0 ({ fh with fptr := fh.fptr + 1 } : Fil) 1 =
          (0, [], { fh with fptr := fh.fptr + 1 }) :=
        f_read_one_eof { fh with fptr := fh.fptr + 1 }
          (by show fh.data.length ≤ fh.fptr + 1; omega)
      have hres : fatfs_getc 0 0 st =
          (10, { st with udata := some { fh with fptr := fh.fptr + 1 } }) := by
        simp only [fatfs_getc, hud, heval1, heval2, List.headD_cons]
        norm_num
      refine ⟨by rw [hres]; exact ⟨rfl, rfl⟩, by intro hne; exact absurd rfl hne,
        ?_, ?_, ?_⟩
      · intro _ _; exact hres
      · intro _ hlen; omega
      · intro _ hlen; omega
  · have hres : fatfs_getc 0 0 st =
        ((b : Int), { st with udata := some { fh with fptr := fh.fptr + 1 } }) := by
      simp only [fatfs_getc, hud, heval1, List.headD_cons]
      rw [if_neg (by norm_num), if_neg hcr]
    refine ⟨by rw [hres]; exact ⟨rfl, rfl⟩, fun _ => hres, ?_, ?_, ?_⟩
    · intro hb13; exact absurd hb13 hcr
    · intro hb13; exact absurd hb13 hcr
    · intro hb13; exact absurd hb13 hcr

/-- Witness for C4 on the concrete file [65, 13, 10] read from position
0: the byte 65 is returned unchanged and the engine advances to 1. -/
theorem fatfs_getc_normalizes_witness :
    fatfs_getc 0 0 (fileRec [65, 13, 10] 0) =
      (65, { fileRec [65, 13, 10] 0 with
             udata := some { (⟨[65, 13, 10], 0⟩ : Fil) with fptr := 0 + 1 } }) :=
  (fatfs_getc_normalizes (fileRec [65, 13, 10] 0) ⟨[65, 13, 10], 0⟩ 65 rfl
    (by decide) (by decide) (by decide)).2.1 (by decide)

/-- Claim C6: lseek on a non-console handle resolves SEEK_END against
the engine-reported file size and SEEK_CUR against the engine's current
file position, while SEEK_SET is absolute; after the engine performs the
seek it returns -1 whenever the resulting engine position differs from
the requested absolute position even if the engine reported success, and
otherwise returns the new position (with errno translated on an engine
failure). -/
theorem lseek_resolves_and_checks (seekFn : Int → Nat × Nat) (fd : Nat)
    (position : Int) (whence : Nat) (s : St) (st : StreamRec) (fh : Fil)
    (target : Int) (res newPtr : Nat)
    (h3 : 3 ≤ fd) (hlen : fd < s.tbl.length)
    (hslot : s.tbl.getD fd none = some st) (hud : st.udata = some fh)
    (htarget : target =
      (if whence = SEEK_END then position + (fh.data.length : Int)
       else if whence = SEEK_CUR then position + (fh.fptr : Int)
       else position))
    (hseek : seekFn target = (res, newPtr)) :
    (res ≠ 0 →
       (lseek seekFn (fd : Int) position whence s).fst = -1 ∧
       (lseek seekFn (fd : Int) position whence s).snd.err = fatfs_to_errno res) ∧
    (res = 0 → target ≠ (newPtr : Int) →
       (lseek seekFn (fd : Int) position whence s).fst = -1) ∧
    (res = 0 → target = (newPtr : Int) →
       (lseek seekFn (fd : Int) position whence s).fst = (newPtr : Int)) := by
  subst htarget
  have hat : isatty (fd : Int) = false := isatty_false_of_3le fd h3
  have h2 : fileno_to_fatfs { s with err := 0 } (fd : Int) =
      (some fh, { s with err := 0 }) :=
    fileno_to_fatfs_bound _ fd st fh h3 hlen hslot hud
  have hmod1 : modify_slot { s with err := 0 } (fd : Int)
      (fun st => { st with sunget := true }) =
      { tbl := s.tbl.set fd (some { st with sunget := true }), err := 0 } :=
    modify_slot_occupied _ fd st _ hslot
  have hslot2 : (s.tbl.set fd (some { st with sunget := true })).getD fd none =
      some { st with sunget := true } := getD_set_self s.tbl fd _ hlen
  have hmod2 : modify_slot
      { tbl := s.tbl.set fd (some { st with sunget := true }), err := 0 } (fd : Int)
      (fun st2 => { st2 with udata := some { fh with fptr := newPtr } }) =
      { tbl := (s.tbl.set fd (some { st with sunget := true })).set fd
          (some { st with sunget := true, udata := some { fh with fptr := newPtr } }),
        err := 0 } :=
    modify_slot_occupied _ fd _ _ hslot2
  refine ⟨?_, ?_, ?_⟩
  · intro hres
    have heval : lseek seekFn (fd : Int) position whence s =
        (-1, { tbl := (s.tbl.set fd (some { st with sunget := true })).set fd
                 (some { st with sunget := true, udata := some { fh with fptr := newPtr } }),
               err := fatfs_to_errno res }) := by
      simp only [lseek, h2, hat, Bool.false_eq_true, if_false, hmod1, hseek,
        hmod2, if_pos hres]
    rw [heval]
    exact ⟨rfl, rfl⟩
  · intro hres hne
    subst hres
    have heval : (lseek seekFn (fd : Int) position whence s).fst = -1 := by
      simp only [lseek, h2, hat, Bool.false_eq_true, if_false, hmod1, hseek,
        hmod2, if_neg (by omega : ¬((0 : Nat) ≠ 0)), if_pos hne]
    exact heval
  · intro hres heq
    subst hres
    have heval : (lseek seekFn (fd : Int) position whence s).fst = (newPtr : Int) := by
      simp only [lseek, h2, hat, Bool.false_eq_true, if_false, hmod1, hseek,
        hmod2, if_neg (by omega : ¬((0 : Nat) ≠ 0)),
        if_neg (show ¬((if whence = SEEK_END then position + (fh.data.length : Int)
          else if whence = SEEK_CUR then position + (fh.fptr : Int)
          else position) ≠ (newPtr : Int)) from fun hh => hh heq)]
    exact heval

/-- Witness for C6: seeking handle 3 of the sample state by offset 1
from SEEK_CUR (engine position 1) with a well-behaved engine lands at
and returns position 2. -/
theorem lseek_resolves_and_checks_witness :
    (lseek (fun p => (0, p.toNat)) 3 1 1 stFile).fst = 2 := by
  have h := lseek_resolves_and_checks (fun p => (0, p.toNat)) 3 1 1 stFile
    (fileRec [7, 8, 9] 1) ⟨[7, 8, 9], 1⟩ 2 0 2 (by decide) (by decide)
    (by decide) (by decide) (by decide) (by decide)
  exact h.2.2 rfl (by decide)

/-- Claim C5 is a code bug: the source executes
stream->flags |= __SUNGET on a successful lseek (src/posix/posix.c line
637), which SETS the pending-pushback bit instead of clearing it (the
twin sites at lines 1027 and 1111 carry the comments "ungetc is
undefined for read" and "reset unget on sync", showing the intent to
reset).  Concretely: the seek to position 2 succeeds (returns 2), yet
afterwards the stream's pushback-pending flag is set and the next fgetc
returns the stale unget byte 42 instead of the byte 3 stored at the new
file position. -/
theorem lseek_sets_pending_pushback :
    (lseek (fun p => (0, p.toNat)) 3 2 0 stStale).fst = 2 ∧
    ((lseek (fun p => (0, p.toNat)) 3 2 0 stStale).snd.tbl.getD 3 none).map
        StreamRec.sunget = some true ∧
    (fgetc 0 0 0
      ((lseek (fun p => (0, p.toNat)) 3 2 0 stStale).snd.tbl.getD 3 none)).fst = 42 ∧
    (fgetc 0 0 0
      ((lseek (fun p => (0, p.toNat)) 3 2 0 stStale).snd.tbl.getD 3 none)).fst ≠ 3 := by
  decide

/-- Counterexample to claim C7 as stated: the stream at handle 3 is
readable, has no pending pushback, and the byte 65 is not the EOF
sentinel — none of the claim's rejection conditions holds — yet ungetc
rejects it (returns EOF, stream unchanged), because the source first
executes if(!isatty(fd)) return(EOF), rejecting every non-console
stream. -/
theorem ungetc_counterexample :
    ungetc 65 3 stFile = (EOF, stFile) ∧
    stFile.tbl.getD 3 none = some (fileRec [7, 8, 9] 1) ∧
    (fileRec [7, 8, 9] 1).sunget = false ∧
    (fileRec [7, 8, 9] 1).rd = true ∧
    (65 : Int) ≠ EOF := by
  decide

/-- Claim C7, amended: ungetc is rejected (returns EOF with no change to
the stream) exactly when the stream is not a console (TTY) stream, or a
pushback is already pending, or the stream is not readable, or c is the
EOF sentinel; on success (console stream) it stores c as the pending
pushback byte, clears the end-of-file flag, decrements the logical read
count and returns c, and the next fgetc returns c, clears the pending
flag and restores the read count. -/
theorem ungetc_spec (c : Int) (fd : Nat) (s : St) (st : StreamRec)
    (hlen : fd < s.tbl.length) (hslot : s.tbl.getD fd none = some st) :
    (2 < fd → ungetc c (fd : Int) s = (EOF, s)) ∧
    (fd ≤ 2 →
       ((st.sunget = true ∨ st.rd = false ∨ c = EOF) →
          ungetc c (fd : Int) s = (EOF, s)) ∧
       (st.sunget = false → st.rd = true → c ≠ EOF →
          ungetc c (fd : Int) s =
            (c, { s with tbl := s.tbl.set fd (some { st with sunget := true, seof := false, unget := c, len := st.len - 1 }) }) ∧
          fgetc 0 0 0 (some { st with sunget := true, seof := false, unget := c, len := st.len - 1 }) =
            (c, some { st with sunget := false, seof := false, unget := c, len := st.len }))) := by
  have hfd : (if 0 ≤ (fd : Int) ∧ (fd : Int) < (s.tbl.length : Int) ∧
      s.tbl.getD ((fd : Int)).toNat none ≠ none then (fd : Int) else -1) = (fd : Int) := by
    rw [if_pos]
    exact ⟨by omega, by omega, by rw [Int.toNat_natCast, hslot]; simp⟩
  constructor
  · intro h3
    have hat : isatty (fd : Int) = false := isatty_false_of_3le fd (by omega)
    simp only [ungetc, hfd, hat, if_true]
  · intro hle
    have hat : isatty (fd : Int) = true := by
      simp only [isatty, decide_eq_true_eq]
      omega
    have hfd2 : (if 0 ≤ (fd : Int) ∧ (fd : Int) < (s.tbl.length : Int) ∧
        (some st : Option StreamRec) ≠ none then (fd : Int) else -1) = (fd : Int) := by
      rw [if_pos]
      exact ⟨by omega, by omega, by simp⟩
    have hresolve : ungetc c (fd : Int) s =
        (if c = EOF then (EOF, s)
         else if st.sunget = true then (EOF, s)
         else if st.rd = false then (EOF, s)
         else (c, { s with tbl := s.tbl.set fd (some { st with sunget := true, seof := false, unget := c, len := st.len - 1 }) })) := by
      simp only [ungetc, Int.toNat_natCast, hslot, hfd2, hat, Bool.true_eq_false,
        if_false, modify_slot_occupied s fd st _ hslot]
    constructor
    · intro hrej
      by_cases hc : c = EOF
      · rw [hresolve, if_pos hc]
      · rw [hresolve, if_neg hc]
        rcases hrej with h | h | h
        · rw [if_pos h]
        · by_cases hsu : st.sunget = true
          · rw [if_pos hsu]
          · rw [if_neg hsu, if_pos h]
        · exact absurd h hc
    · intro hsu hrd hc
      constructor
      · rw [hresolve, if_neg hc, if_neg (by simp [hsu]), if_neg (by simp [hrd])]
      · have hlenadd : st.len - 1 + 1 = st.len := by omega
        simp only [fgetc, hrd, Bool.true_eq_false, if_false, if_true, hlenadd]

/-- Witness for C7 (amended): pushing 65 back on the console stream at
handle 0 succeeds, and the next fgetc re-delivers it. -/
theorem ungetc_spec_witness :
    ungetc 65 0 stFile =
      (65, { stFile with tbl := stFile.tbl.set 0 (some { conRec with sunget := true, seof := false, unget := 65, len := conRec.len - 1 }) }) ∧
    fgetc 0 0 0 (some { conRec with sunget := true, seof := false, unget := 65, len := conRec.len - 1 }) =
      (65, some { conRec with sunget := false, seof := false, unget := 65, len := conRec.len }) :=
  ((ungetc_spec 65 0 stFile conRec (by decide) (by decide)).2 (by decide)).2
    rfl rfl (by decide)

theorem overwrite_nil (buf : List Nat) : overwrite buf [] = buf := by
  cases buf <;> rfl

theorem read_decomp (congets : List Int) (engRes : Nat) (fd : Int)
    (buf : List Nat) (count : Nat) (s : St) :
    (read congets engRes fd buf count s).snd.fst =
      overwrite (buf.set 0 0) (read_written congets engRes fd count s) ∧
    ((read congets engRes fd buf count s).fst = -1 →
      read_written congets engRes fd count s = []) := by
  by_cases h0 : fd = 0 ∧ (fileno_to_stream { s with err := 0 } fd).fst.isSome
  · have hf : (read congets engRes fd buf count s).fst =
        ((read_written congets engRes fd count s).length : Int) := by
      simp only [read, read_written, if_pos h0]
    refine ⟨by simp only [read, read_written, if_pos h0], ?_⟩
    intro hm1
    rw [hf] at hm1
    exact absurd hm1 (by omega)
  · by_cases h12 : (fd = 1 ∨ fd = 2) ∧ (fileno_to_stream { s with err := 0 } fd).fst.isSome
    · have hw : read_written congets engRes fd count s = [] := by
        simp only [read_written, if_neg h0, if_pos h12]
      refine ⟨?_, fun _ => hw⟩
      rw [hw, overwrite_nil]
      simp only [read, if_neg h0, if_pos h12]
    · rcases hff : fileno_to_fatfs (fileno_to_stream { s with err := 0 } fd).snd fd with
        ⟨fhq, s2x⟩
      cases fhq with
      | none =>
        have hw : read_written congets engRes fd count s = [] := by
          simp only [read_written, if_neg h0, if_neg h12, hff]
        refine ⟨?_, fun _ => hw⟩
        rw [hw, overwrite_nil]
        simp only [read, if_neg h0, if_neg h12, hff]
      | some fh =>
        by_cases hres : engRes ≠ 0
        · have hrd : f_read_n engRes fh count = (engRes, [], fh) := by
            simp [f_read_n, if_pos hres]
          have hw : read_written congets engRes fd count s = [] := by
            simp only [read_written, if_neg h0, if_neg h12, hff, hrd]
          refine ⟨?_, fun _ => hw⟩
          rw [hw, overwrite_nil]
          simp only [read, if_neg h0, if_neg h12, hff, hrd, if_pos hres]
        · have hres0 : engRes = 0 := by omega
          subst hres0
          have hf : (read congets 0 fd buf count s).fst =
              ((read_written congets 0 fd count s).length : Int) := by
            simp only [read, read_written, if_neg h0, if_neg h12, hff, f_read_n,
              if_neg (by omega : ¬((0 : Nat) ≠ 0))]
          refine ⟨?_, ?_⟩
          · simp only [read, read_written, if_neg h0, if_neg h12, hff, f_read_n,
              if_neg (by omega : ¬((0 : Nat) ≠ 0))]
          · intro hm1
            rw [hf] at hm1
            exact absurd hm1 (by omega)

/-- Claim C10: on every call, read writes a zero byte to buf[0] before
validating the handle or transferring any data: the final buffer is
always the zeroed buffer overwritten only by subsequently read bytes,
and every failing read (invalid handle, console-output handle, engine
error) returns -1 with the buffer equal to the original except that its
first byte has been zeroed — so a failing read modifies the first byte
of a buffer whose first byte was nonzero rather than leaving the buffer
unchanged. -/
theorem read_always_zeroes_first_byte (congets : List Int) (engRes : Nat)
    (fd : Int) (buf : List Nat) (count : Nat) (s : St) :
    ((read congets engRes fd buf count s).fst = -1 →
       (read congets engRes fd buf count s).snd.fst = buf.set 0 0) ∧
    ((read congets engRes fd buf count s).fst = -1 → buf.headD 0 ≠ 0 →
       (read congets engRes fd buf count s).snd.fst ≠ buf) ∧
    (∃ written, (read congets engRes fd buf count s).snd.fst =
       overwrite (buf.set 0 0) written) := by
  have hset_ne : buf.headD 0 ≠ 0 → buf.set 0 0 ≠ buf := by
    intro hh
    cases buf with
    | nil => simp at hh
    | cons b t =>
      simp only [List.headD_cons] at hh
      simp only [List.set_cons_zero, ne_eq, List.cons.injEq, not_and]
      intro h0
      exact absurd h0.symm hh
  obtain ⟨heq, himp⟩ := read_decomp congets engRes fd buf count s
  have hz : (read congets engRes fd buf count s).fst = -1 →
      (read congets engRes fd buf count s).snd.fst = buf.set 0 0 := by
    intro hm1
    rw [heq, himp hm1, overwrite_nil]
  refine ⟨hz, ?_, ⟨read_written congets engRes fd count s, heq⟩⟩
  intro hm1 hh
  rw [hz hm1]
  exact hset_ne hh

/-- Witness for C10: reading from the console-output handle 1 fails with
-1 and zeroes the first byte of the caller's buffer [7, 8]. -/
theorem read_always_zeroes_witness :
    (read [] 0 1 [7, 8] 2 stFile).snd.fst = [7, 8].set 0 0 ∧
    (read [] 0 1 [7, 8] 2 stFile).snd.fst ≠ [7, 8] :=
  ⟨(read_always_zeroes_first_byte [] 0 1 [7, 8] 2 stFile).1 (by decide),
   (read_always_zeroes_first_byte [] 0 1 [7, 8] 2 stFile).2.1 (by decide) (by decide)⟩

end Posix
